import Mathlib

/-
  Verification of the pixelmart wallet-state cache and NFT/listing
  reconciliation layer.

  Shallow embedding of:
  - the ownership resolver `useOwnedNFTs` / `useNFTs`
    (src/frontend/app/profile/page.tsx, second document),
  - the profile-page listing reconciliation `myListings` / `listedMints` /
    `ownedNotListed` (src/frontend/app/profile/page.tsx, first document),
  - the localStorage TTL cache `getCache` / `setCache` / `isCacheValid` and
    the readers `fetchBalance` / `fetchTransactions` and the sender
    `handleSend` (src/unnamed/part_001, WalletSheet component).

  Public keys, mints and account pubkeys are modelled as `Nat`; JS numbers
  as `ℚ` (the claims never involve float rounding); JS timestamps as `Int`;
  a throwing async call as `Except Unit _`.  localStorage is a total map
  `String → Option _` holding the parsed envelope `{ data, timestamp }`
  (the JSON round trip is the identity on the modelled values).
-/

namespace PixelMart

/-! ### Ownership resolver (useOwnedNFTs) -/

/-- A parsed SPL token account as seen by `getParsedTokenAccountsByOwner`:
`account.pubkey`, `parsed.info.mint`, `parsed.info.tokenAmount.uiAmount`,
`parsed.info.tokenAmount.decimals`. -/
structure TokenAccount where
  pubkey : Nat
  mint : Nat
  uiAmount : ℚ
  decimals : Nat
deriving DecidableEq, Repr

/-- Descriptive metadata returned by `fetchNFTMetadataFromChain`. -/
structure NFTMetadata where
  name : String
  image : String
deriving DecidableEq, Repr

/-- Environment for one mint during a resolution pass:
`account` is the ground-truth account at the derived listing address
(`getListingPDA` result) at resolution time; `lookupThrows` says whether
`connection.getAccountInfo` throws instead of returning `account`;
`metadata` is the result of `fetchNFTMetadataFromChain` (or a throw). -/
structure MintEnv where
  account : Option Nat
  lookupThrows : Bool
  metadata : Except Unit NFTMetadata

/-- The `OwnedNFT` record produced by the resolver. -/
structure OwnedNFT where
  mint : Nat
  tokenAccount : Nat
  amount : ℚ
  metadata : Option NFTMetadata
  isListed : Bool
deriving DecidableEq, Repr

/-- The NFT-shaped filter of `useOwnedNFTs`:
`uiAmount === 1 && decimals === 0`. -/
def nftAccountsOf (accounts : List TokenAccount) : List TokenAccount :=
  accounts.filter fun a => decide (a.uiAmount = 1 ∧ a.decimals = 0)

/-- Per-asset body of the `Promise.all` in `useOwnedNFTs`: derive the
listing address, query its account, fetch metadata; the surrounding
`try/catch` turns any throw into `{ isListed: false, metadata: undefined }`. -/
def processNft (a : TokenAccount) (e : MintEnv) : OwnedNFT :=
  if e.lookupThrows then
    { mint := a.mint, tokenAccount := a.pubkey, amount := a.uiAmount,
      metadata := none, isListed := false }
  else
    match e.metadata with
    | .error _ =>
        { mint := a.mint, tokenAccount := a.pubkey, amount := a.uiAmount,
          metadata := none, isListed := false }
    | .ok m =>
        { mint := a.mint, tokenAccount := a.pubkey, amount := a.uiAmount,
          metadata := some m, isListed := e.account.isSome }

/-- One resolution pass over an already-enumerated account list: filter to
NFT-shaped holdings, then the positional `Promise.all` join. -/
def resolveOwned (accounts : List TokenAccount) (env : Nat → MintEnv) :
    List OwnedNFT :=
  (nftAccountsOf accounts).map fun a => processNft a (env a.mint)

/-- The whole `refetch` body: enumeration may itself throw (hard failure,
caught by the outer `try/catch` and surfaced as the error state); once
enumeration succeeds the pass always succeeds. -/
def refetchOwned (enumeration : Except Unit (List TokenAccount))
    (env : Nat → MintEnv) : Except Unit (List OwnedNFT) :=
  match enumeration with
  | .error e => .error e
  | .ok accounts => .ok (resolveOwned accounts env)

/-- Result of the i-th fan-out task over the retained holdings `hs`:
`none` when `i` is out of range. -/
def taskResult (hs : List TokenAccount) (env : Nat → MintEnv) (i : Nat) :
    Option OwnedNFT :=
  (hs[i]?).map fun a => processNft a (env a.mint)

/-- One completion event of the fan-out: task `i` finishes and its result is
written into slot `i` of the join buffer. -/
def joinStep (hs : List TokenAccount) (env : Nat → MintEnv)
    (acc : List (Option OwnedNFT)) (i : Nat) : List (Option OwnedNFT) :=
  match taskResult hs env i with
  | some r => acc.set i (some r)
  | none => acc

/-- The `Promise.all` join under an explicit completion order `sched`:
tasks complete in the order listed in `sched` and each writes its own slot. -/
def joinByIndex (hs : List TokenAccount) (env : Nat → MintEnv)
    (sched : List Nat) : List (Option OwnedNFT) :=
  sched.foldl (joinStep hs env) (List.replicate hs.length none)

/-! ### Profile page reconciliation (myListings, listedMints, ownedNotListed) -/

/-- An on-chain listing account as decoded by `useListings`. -/
structure Listing where
  seller : Nat
  nftMint : Nat
  price : Int
deriving DecidableEq, Repr

/-- A simplified owned NFT as produced by `useNFTs` for the profile page. -/
structure ProfileNft where
  mint : Nat
  isListed : Bool
deriving DecidableEq, Repr

/-- ProfilePage `myListings`: listings whose seller equals the connected
wallet; empty when no wallet is connected. -/
def myListings (pk : Option Nat) (listings : List Listing) : List Listing :=
  match pk with
  | none => []
  | some k => listings.filter fun l => decide (l.seller = k)

/-- ProfilePage `listedMints`: the mint set of `myListings` (modelled as the
mint list, with membership as the `Set.has` test). -/
def listedMints (pk : Option Nat) (listings : List Listing) : List Nat :=
  (myListings pk listings).map Listing.nftMint

/-- ProfilePage `ownedNotListed`: owned NFTs whose mint is not in
`listedMints`. -/
def ownedNotListed (pk : Option Nat) (listings : List Listing)
    (nfts : List ProfileNft) : List ProfileNft :=
  nfts.filter fun n => decide (¬ n.mint ∈ listedMints pk listings)

/-! ### Cache layer (getCache, setCache, isCacheValid) -/

/-- The parsed cache envelope `{ data, timestamp }`. -/
structure CachedData (V : Type) where
  data : V
  timestamp : Int
deriving DecidableEq, Repr

/-- The persisted key-value store (localStorage) holding parsed envelopes. -/
abbrev Store (V : Type) := String → Option (CachedData V)

/-- Fixed key namespace CACHE_KEY_PREFIX = "pixelmart_wallet_". -/
def cacheKeyBase : String := "pixelmart_wallet_"

/-- The balance cache TTL: 30 seconds in milliseconds. -/
def BALANCE_CACHE_TTL : Int := 30 * 1000

/-- The transaction cache TTL: 60 seconds in milliseconds. -/
def TX_CACHE_TTL : Int := 60 * 1000

/-- Per-wallet balance cache key. -/
def balanceCacheKey (wallet : String) : String := "balance_" ++ wallet

/-- Per-wallet transaction cache key. -/
def txCacheKey (wallet : String) : String := "txs_" ++ wallet

/-- Source `getCache`: read the namespaced key and return the payload. -/
def getCache {V : Type} (key : String) (s : Store V) : Option V :=
  (s (cacheKeyBase ++ key)).map CachedData.data

/-- Source `setCache`: overwrite the namespaced key with the payload and the
current time as capture timestamp. -/
def setCache {V : Type} (key : String) (v : V) (now : Int) (s : Store V) :
    Store V :=
  fun k => if k = cacheKeyBase ++ key then some ⟨v, now⟩ else s k

/-- Source `isCacheValid`: an entry exists and `now - timestamp < ttl`. -/
def isCacheValid {V : Type} (key : String) (ttl : Int) (now : Int)
    (s : Store V) : Bool :=
  match s (cacheKeyBase ++ key) with
  | none => false
  | some c => decide (now - c.timestamp < ttl)

/-! ### fetchBalance / fetchTransactions -/

/-- Outcome of one `fetchBalance` call: the balance state it leaves behind
(`none` models `setBalance(null)`), the store it leaves behind, and how many
live connection fetches it performed. -/
structure BalanceFetchResult (V : Type) where
  balance : Option V
  store : Store V
  liveFetches : Nat

/-- Source `fetchBalance` (connected-wallet path): serve a valid cache entry
with no fetch; otherwise perform the live fetch (`live`), on success store
and display it (capture timestamp `fetchDone`), on failure reset the
displayed balance to null and leave the store alone. -/
def fetchBalance {V : Type} (forceRefresh : Bool) (wallet : String)
    (checkTime fetchDone : Int) (live : Except Unit V) (s : Store V) :
    BalanceFetchResult V :=
  if !forceRefresh &&
      isCacheValid (balanceCacheKey wallet) BALANCE_CACHE_TTL checkTime s &&
      (getCache (balanceCacheKey wallet) s).isSome then
    { balance := getCache (balanceCacheKey wallet) s, store := s,
      liveFetches := 0 }
  else
    match live with
    | .ok v =>
        { balance := some v,
          store := setCache (balanceCacheKey wallet) v fetchDone s,
          liveFetches := 1 }
    | .error _ => { balance := none, store := s, liveFetches := 1 }

/-- A recent-activity row built by `fetchTransactions`; direction and amount
are assigned by the mapping step (randomized in the source), so for the
cache-behavior claims the built list is taken as the live result wholesale. -/
structure TransactionItem where
  signature : String
  sent : Bool
  amount : ℚ
  timestamp : Int
  success : Bool
deriving DecidableEq, Repr

/-- Outcome of one `fetchTransactions` call: the displayed list it leaves
behind, the store it leaves behind, and the number of live fetches. -/
structure TxFetchResult where
  txs : List TransactionItem
  store : Store (List TransactionItem)
  liveFetches : Nat

/-- Source `fetchTransactions` (connected-wallet path): like `fetchBalance`
but on live failure the catch block only logs, leaving both the displayed
list (`prevTxs`) and the store unchanged. -/
def fetchTransactions (forceRefresh : Bool) (wallet : String)
    (checkTime fetchDone : Int) (live : Except Unit (List TransactionItem))
    (s : Store (List TransactionItem)) (prevTxs : List TransactionItem) :
    TxFetchResult :=
  if !forceRefresh &&
      isCacheValid (txCacheKey wallet) TX_CACHE_TTL checkTime s &&
      (getCache (txCacheKey wallet) s).isSome then
    { txs := (getCache (txCacheKey wallet) s).getD prevTxs, store := s,
      liveFetches := 0 }
  else
    match live with
    | .ok txs =>
        { txs := txs, store := setCache (txCacheKey wallet) txs fetchDone s,
          liveFetches := 1 }
    | .error _ => { txs := prevTxs, store := s, liveFetches := 1 }

/-! ### handleSend -/

/-- LAMPORTS_PER_SOL as a rational. -/
def LAMPORTS_PER_SOL : ℚ := 1000000000

/-- The error states `handleSend` can report through `setSendError`. -/
inductive SendError where
  | invalidRecipient
  | invalidAmount
  | insufficientBalance
  | txFailed
deriving DecidableEq, Repr

/-- Outcome of one `handleSend` call: the reported error (if any), whether it
succeeded, the lamports of the constructed transfer (`none` when no
transaction object was built), whether `sendTransaction` was invoked, and
whether any network access happened at all. -/
structure SendResult where
  sendError : Option SendError
  sendSuccess : Bool
  constructedLamports : Option Int
  submitted : Bool
  networkAccess : Bool
deriving DecidableEq, Repr

/-- Source `handleSend` (connected-wallet path).  `recipientParsed` is the
result of `new PublicKey(recipient)` (`none` = constructor threw);
`amountParsed` is `parseFloat(amount)` (`none` = NaN); `balance` is the
current balance state; `txOutcome` is the combined
`sendTransaction`/`confirmTransaction` result. -/
def handleSend (recipientParsed : Option Nat) (amountParsed : Option ℚ)
    (balance : Option ℚ) (txOutcome : Except Unit String) : SendResult :=
  match recipientParsed with
  | none =>
      { sendError := some .invalidRecipient, sendSuccess := false,
        constructedLamports := none, submitted := false, networkAccess := false }
  | some _ =>
      match amountParsed with
      | none =>
          { sendError := some .invalidAmount, sendSuccess := false,
            constructedLamports := none, submitted := false,
            networkAccess := false }
      | some amt =>
          if amt ≤ 0 then
            { sendError := some .invalidAmount, sendSuccess := false,
              constructedLamports := none, submitted := false,
              networkAccess := false }
          else if (match balance with
                   | some b => decide (b < amt)
                   | none => false) then
            { sendError := some .insufficientBalance, sendSuccess := false,
              constructedLamports := none, submitted := false,
              networkAccess := false }
          else
            let lam := ⌊amt * LAMPORTS_PER_SOL⌋
            match txOutcome with
            | .ok _sig =>
                { sendError := none, sendSuccess := true,
                  constructedLamports := some lam, submitted := true,
                  networkAccess := true }
            | .error _ =>
                { sendError := some .txFailed, sendSuccess := false,
                  constructedLamports := some lam, submitted := true,
                  networkAccess := true }

/-! ### Helper lemmas about the resolver -/

theorem processNft_mint (a : TokenAccount) (e : MintEnv) :
    (processNft a e).mint = a.mint := by
  rcases e with ⟨acct, lt, md⟩
  cases lt <;> cases md <;> rfl

theorem processNft_metadata_none (a : TokenAccount) (e : MintEnv)
    (h : e.metadata = Except.error ()) : (processNft a e).metadata = none := by
  rcases e with ⟨acct, lt, md⟩
  simp only at h
  subst h
  cases lt <;> rfl

theorem processNft_isListed (a : TokenAccount) (e : MintEnv) :
    ((processNft a e).isListed = true ↔
      (e.lookupThrows = false ∧ (∃ m, e.metadata = Except.ok m) ∧
        e.account.isSome = true)) := by
  rcases e with ⟨acct, lt, md⟩
  cases lt <;> cases md <;> simp [processNft]

theorem resolveOwned_map_mint (accounts : List TokenAccount)
    (env : Nat → MintEnv) :
    (resolveOwned accounts env).map OwnedNFT.mint =
      (nftAccountsOf accounts).map TokenAccount.mint := by
  unfold resolveOwned
  rw [List.map_map]
  apply List.map_congr_left
  intro a _
  exact processNft_mint a (env a.mint)

theorem mem_resolveOwned (accounts : List TokenAccount) (env : Nat → MintEnv)
    (n : OwnedNFT) :
    n ∈ resolveOwned accounts env ↔
      ∃ a ∈ accounts, a.uiAmount = 1 ∧ a.decimals = 0 ∧
        n = processNft a (env a.mint) := by
  simp only [resolveOwned, nftAccountsOf, List.mem_map, List.mem_filter,
    decide_eq_true_eq]
  constructor
  · rintro ⟨a, ⟨ha, h1, h0⟩, rfl⟩
    exact ⟨a, ha, h1, h0, rfl⟩
  · rintro ⟨a, ha, h1, h0, rfl⟩
    exact ⟨a, ⟨ha, h1, h0⟩, rfl⟩

/-! ### Claim theorems -/

/-- C2: the resolver excludes every holding whose quantity is not exactly 1
or whose decimals are not 0 and includes every holding with quantity 1 and
decimals 0 (output mint membership matches exactly the unit-quantity,
zero-decimal holdings); and in the three-account scenario (two holdings with
quantity 1 / decimals 0 on mints 1 and 2, one with quantity 1000 /
decimals 6 on mint 3) the output has exactly the two unit mints, in order. -/
theorem C2_unit_holding_filter :
    (∀ (accounts : List TokenAccount) (env : Nat → MintEnv) (m : Nat),
      m ∈ (resolveOwned accounts env).map OwnedNFT.mint ↔
        ∃ a ∈ accounts, a.mint = m ∧ a.uiAmount = 1 ∧ a.decimals = 0)
    ∧ (resolveOwned
        [⟨10, 1, 1, 0⟩, ⟨11, 2, 1, 0⟩, ⟨12, 3, 1000, 6⟩]
        (fun _ => ⟨none, false, Except.error ()⟩)).map OwnedNFT.mint
        = [1, 2] := by
  constructor
  · intro accounts env m
    simp only [List.mem_map, mem_resolveOwned]
    constructor
    · rintro ⟨n, ⟨a, ha, h1, h0, rfl⟩, rfl⟩
      exact ⟨a, ha, (processNft_mint a (env a.mint)).symm, h1, h0⟩
    · rintro ⟨a, ha, rfl, h1, h0⟩
      exact ⟨processNft a (env a.mint), ⟨a, ha, h1, h0, rfl⟩,
        processNft_mint a (env a.mint)⟩
  · decide

/-- C3: an owned NFT appears in the available-to-list set exactly when its
mint is not among the mints of the current listings whose seller is the
connected wallet; in the scenario where a listing exists for mint 9 owned by
wallet 5, the available-to-list view excludes mint 9 (and keeps mint 4). -/
theorem C3_available_to_list :
    (∀ (pk : Nat) (listings : List Listing) (nfts : List ProfileNft)
        (n : ProfileNft),
      n ∈ ownedNotListed (some pk) listings nfts ↔
        (n ∈ nfts ∧ ¬ ∃ l ∈ listings, l.seller = pk ∧ l.nftMint = n.mint))
    ∧ ownedNotListed (some 5) [⟨5, 9, 100⟩] [⟨9, true⟩, ⟨4, false⟩]
        = [⟨4, false⟩] := by
  constructor
  · intro pk listings nfts n
    simp only [ownedNotListed, listedMints, myListings, List.mem_filter,
      List.mem_map, List.mem_filter, decide_eq_true_eq]
    constructor
    · rintro ⟨hn, h⟩
      refine ⟨hn, ?_⟩
      rintro ⟨l, hl, hs, hm⟩
      exact h ⟨l, ⟨hl, hs⟩, hm⟩
    · rintro ⟨hn, h⟩
      refine ⟨hn, ?_⟩
      rintro ⟨l, ⟨hl, hs⟩, hm⟩
      exact h ⟨l, hl, hs, hm⟩
  · decide

/-- C1 counterexample: one holding on mint 1; the listing account at the
derived address is non-null (`some 7`) and the listing lookup does not
throw, but the metadata fetch throws, so the per-asset catch emits the
record with `listed = false` — the flag is not true although the listing
address has a non-null account at resolution time. -/
theorem C1_counterexample_listed_flag :
    (resolveOwned [⟨10, 1, 1, 0⟩]
        (fun _ => ⟨some 7, false, Except.error ()⟩)).map
        (fun n => (n.mint, n.isListed)) = [(1, false)]
    ∧ ((fun _ => (⟨some 7, false, Except.error ()⟩ : MintEnv)) 1).account.isSome
        = true
    ∧ ((fun _ => (⟨some 7, false, Except.error ()⟩ : MintEnv)) 1).lookupThrows
        = false :=
  ⟨by decide, rfl, rfl⟩

/-- C1 (amended): for every OwnedAsset record in the resolver output, the
listed flag is true iff the per-asset try block completed — the listing
lookup did not throw and the metadata fetch returned — and the account at
the derived listing address is non-null; when a per-asset lookup throws,
the record is emitted with `listed = false` even if that account is
non-null. -/
theorem C1_amended_listed_iff :
    ∀ (accounts : List TokenAccount) (env : Nat → MintEnv) (n : OwnedNFT),
      n ∈ resolveOwned accounts env →
      (n.isListed = true ↔
        ((env n.mint).lookupThrows = false ∧
         (∃ m, (env n.mint).metadata = Except.ok m) ∧
         (env n.mint).account.isSome = true)) := by
  intro accounts env n hn
  rw [mem_resolveOwned] at hn
  obtain ⟨a, -, -, -, rfl⟩ := hn
  rw [processNft_mint]
  exact processNft_isListed a (env a.mint)

/-- C1 (amended) witness: a successful per-asset pass over mint 2 with a
non-null listing account yields `listed = true`, matching the iff. -/
theorem C1_amended_listed_iff_witness :
    ((⟨2, 10, 1, some ⟨"n", "i"⟩, true⟩ : OwnedNFT) ∈
      resolveOwned [⟨10, 2, 1, 0⟩]
        (fun _ => ⟨some 3, false, Except.ok ⟨"n", "i"⟩⟩))
    ∧ ((⟨2, 10, 1, some ⟨"n", "i"⟩, true⟩ : OwnedNFT).isListed = true ↔
        ((⟨some 3, false, Except.ok ⟨"n", "i"⟩⟩ : MintEnv).lookupThrows = false
          ∧ (∃ m, (⟨some 3, false, Except.ok ⟨"n", "i"⟩⟩ : MintEnv).metadata
              = Except.ok m)
          ∧ (⟨some 3, false, Except.ok ⟨"n", "i"⟩⟩ : MintEnv).account.isSome
              = true)) :=
  ⟨by decide, C1_amended_listed_iff [⟨10, 2, 1, 0⟩]
    (fun _ => ⟨some 3, false, Except.ok ⟨"n", "i"⟩⟩)
    ⟨2, 10, 1, some ⟨"n", "i"⟩, true⟩ (by decide)⟩

/-- C6: when the metadata fetch for an emitted asset's mint throws, that
asset still appears with metadata absent, the output still has one entry
per retained holding in holdings order (nothing omitted), and the overall
resolution call succeeds. -/
theorem C6_metadata_failure_is_soft :
    ∀ (accounts : List TokenAccount) (env : Nat → MintEnv) (n : OwnedNFT),
      n ∈ resolveOwned accounts env →
      (env n.mint).metadata = Except.error () →
      (n.metadata = none
        ∧ (resolveOwned accounts env).map OwnedNFT.mint =
            (nftAccountsOf accounts).map TokenAccount.mint
        ∧ refetchOwned (Except.ok accounts) env =
            Except.ok (resolveOwned accounts env)) := by
  intro accounts env n hn herr
  refine ⟨?_, resolveOwned_map_mint accounts env, rfl⟩
  rw [mem_resolveOwned] at hn
  obtain ⟨a, -, -, -, rfl⟩ := hn
  rw [processNft_mint] at herr
  exact processNft_metadata_none a (env a.mint) herr

/-- C6 witness: one holding on mint 4 whose metadata fetch throws; the
resolver still emits it, with metadata absent, and the call succeeds. -/
theorem C6_metadata_failure_is_soft_witness :
    ((⟨4, 20, 1, none, false⟩ : OwnedNFT) ∈
        resolveOwned [⟨20, 4, 1, 0⟩] (fun _ => ⟨some 1, false, Except.error ()⟩))
    ∧ ((⟨4, 20, 1, none, false⟩ : OwnedNFT).metadata = none
        ∧ (resolveOwned [⟨20, 4, 1, 0⟩]
            (fun _ => ⟨some 1, false, Except.error ()⟩)).map OwnedNFT.mint =
            (nftAccountsOf [⟨20, 4, 1, 0⟩]).map TokenAccount.mint
        ∧ refetchOwned (Except.ok [⟨20, 4, 1, 0⟩])
            (fun _ => ⟨some 1, false, Except.error ()⟩) =
            Except.ok (resolveOwned [⟨20, 4, 1, 0⟩]
              (fun _ => ⟨some 1, false, Except.error ()⟩))) :=
  ⟨by decide, C6_metadata_failure_is_soft [⟨20, 4, 1, 0⟩]
    (fun _ => ⟨some 1, false, Except.error ()⟩)
    ⟨4, 20, 1, none, false⟩ (by decide) rfl⟩

/-! ### Helper lemmas about the cache layer -/

theorem setCache_read {V : Type} (key : String) (v : V) (now : Int)
    (s : Store V) : setCache key v now s (cacheKeyBase ++ key) = some ⟨v, now⟩ := by
  simp [setCache]

theorem isCacheValid_setCache {V : Type} (key : String) (v : V)
    (t ttl tr : Int) (s : Store V) :
    isCacheValid key ttl tr (setCache key v t s) = decide (tr - t < ttl) := by
  unfold isCacheValid
  rw [setCache_read]

theorem getCache_setCache {V : Type} (key : String) (v : V) (now : Int)
    (s : Store V) : getCache key (setCache key v now s) = some v := by
  unfold getCache
  rw [setCache_read]
  rfl

/-- C4: a `setCache` of any value under any kind's key for any wallet,
followed by a non-forced read within the TTL window, returns that value
unchanged, leaves the store untouched, and performs zero live fetches —
for both the balance read path and the transaction read path. -/
theorem C4_cache_round_trip :
    ∀ (V : Type) (wallet : String) (v : V) (s : Store V)
      (txv : List TransactionItem) (stx : Store (List TransactionItem))
      (prevTxs : List TransactionItem) (t tr tD : Int)
      (live : Except Unit V) (livetx : Except Unit (List TransactionItem)),
      tr - t < 30000 →
      (fetchBalance false wallet tr tD live
          (setCache (balanceCacheKey wallet) v t s) =
        ⟨some v, setCache (balanceCacheKey wallet) v t s, 0⟩
      ∧ fetchTransactions false wallet tr tD livetx
          (setCache (txCacheKey wallet) txv t stx) prevTxs =
        ⟨txv, setCache (txCacheKey wallet) txv t stx, 0⟩) := by
  intro V wallet v s txv stx prevTxs t tr tD live livetx h
  have h30 : tr - t < BALANCE_CACHE_TTL := by unfold BALANCE_CACHE_TTL; omega
  have h60 : tr - t < TX_CACHE_TTL := by unfold TX_CACHE_TTL; omega
  constructor
  · unfold fetchBalance
    rw [isCacheValid_setCache, getCache_setCache]
    simp [h30]
  · unfold fetchTransactions
    rw [isCacheValid_setCache, getCache_setCache]
    simp [h60]

/-- C4 witness: write 5 under wallet W's balance key and the empty list
under its transaction key at time 0, read at time 10; both reads hit. -/
theorem C4_cache_round_trip_witness :
    ((10 : Int) - 0 < 30000)
    ∧ (fetchBalance false "W" 10 11 (Except.error ())
        (setCache (balanceCacheKey "W") (5 : Nat) 0 (fun _ => none)) =
        ⟨some 5, setCache (balanceCacheKey "W") (5 : Nat) 0 (fun _ => none), 0⟩
      ∧ fetchTransactions false "W" 10 11 (Except.error ())
          (setCache (txCacheKey "W") [] 0 (fun _ => none)) [] =
        ⟨[], setCache (txCacheKey "W") [] 0 (fun _ => none), 0⟩) :=
  ⟨by norm_num,
    C4_cache_round_trip Nat "W" 5 (fun _ => none) [] (fun _ => none) [] 0 10 11
      (Except.error ()) (Except.error ()) (by norm_num)⟩

/-- C5: when the cached balance entry is at least a TTL old, a non-forced
read performs exactly one live fetch, returns the newly fetched value
rather than the stale one, and overwrites the entry with the new value and
a capture timestamp equal to the fetch completion time. -/
theorem C5_stale_balance_refetch :
    ∀ (V : Type) (wallet : String) (s : Store V) (vOld : V) (t tr tD : Int)
      (w : V),
      s (cacheKeyBase ++ balanceCacheKey wallet) = some ⟨vOld, t⟩ →
      30000 ≤ tr - t →
      (fetchBalance false wallet tr tD (Except.ok w) s =
          ⟨some w, setCache (balanceCacheKey wallet) w tD s, 1⟩
        ∧ setCache (balanceCacheKey wallet) w tD s
            (cacheKeyBase ++ balanceCacheKey wallet) = some ⟨w, tD⟩) := by
  intro V wallet s vOld t tr tD w hs hstale
  refine ⟨?_, setCache_read _ _ _ _⟩
  unfold fetchBalance
  have hval : isCacheValid (balanceCacheKey wallet) BALANCE_CACHE_TTL tr s
      = false := by
    unfold isCacheValid
    rw [hs]
    simp only [decide_eq_false_iff_not, not_lt]
    unfold BALANCE_CACHE_TTL
    omega
  rw [hval]
  rfl

/-- C5 witness: the balance entry for wallet W was written at time 0 with
value 3; a non-forced read at time 45000 (TTL 30000) fetches 7, returns 7,
and stores 7 with timestamp 45000. -/
theorem C5_stale_balance_refetch_witness :
    ((fun _ => some ⟨3, 0⟩ : Store Nat) (cacheKeyBase ++ balanceCacheKey "W")
        = some ⟨3, 0⟩)
    ∧ ((30000 : Int) ≤ 45000 - 0)
    ∧ (fetchBalance false "W" 45000 45000 (Except.ok 7)
          (fun _ => some ⟨3, 0⟩) =
          ⟨some 7, setCache (balanceCacheKey "W") 7 45000 (fun _ => some ⟨3, 0⟩), 1⟩
        ∧ setCache (balanceCacheKey "W") 7 45000 (fun _ => some ⟨3, 0⟩)
            (cacheKeyBase ++ balanceCacheKey "W") = some ⟨7, 45000⟩) :=
  ⟨rfl, by norm_num,
    C5_stale_balance_refetch Nat "W" (fun _ => some ⟨3, 0⟩) 3 0 45000 45000 7
      rfl (by norm_num)⟩

/-- C10: when the live signature query throws on a non-hit read, the
transaction fetch leaves both the displayed list and the persisted cache
entry unchanged, while the balance fetch under the same failure resets the
displayed balance to null (its store also untouched). -/
theorem C10_tx_error_state_unchanged :
    ∀ (V : Type) (wallet : String) (stx : Store (List TransactionItem))
      (prevTxs : List TransactionItem) (s : Store V) (tr tD : Int),
      isCacheValid (txCacheKey wallet) TX_CACHE_TTL tr stx = false →
      isCacheValid (balanceCacheKey wallet) BALANCE_CACHE_TTL tr s = false →
      (fetchTransactions false wallet tr tD (Except.error ()) stx prevTxs =
          ⟨prevTxs, stx, 1⟩
        ∧ fetchBalance false wallet tr tD (Except.error ()) s =
          ⟨none, s, 1⟩) := by
  intro V wallet stx prevTxs s tr tD htx hbal
  constructor
  · unfold fetchTransactions
    rw [htx]
    rfl
  · unfold fetchBalance
    rw [hbal]
    rfl

/-- C10 witness: empty stores (so both reads miss), failing live queries;
the transaction list [t0] survives, the balance is reset to null. -/
theorem C10_tx_error_state_unchanged_witness :
    (isCacheValid (txCacheKey "W") TX_CACHE_TTL 5
        (fun _ => none : Store (List TransactionItem)) = false)
    ∧ (isCacheValid (balanceCacheKey "W") BALANCE_CACHE_TTL 5
        (fun _ => none : Store Nat) = false)
    ∧ (fetchTransactions false "W" 5 6 (Except.error ()) (fun _ => none)
          [⟨"sig0", true, 1, 0, true⟩] =
          ⟨[⟨"sig0", true, 1, 0, true⟩], fun _ => none, 1⟩
        ∧ fetchBalance false "W" 5 6 (Except.error ())
            (fun _ => none : Store Nat) = ⟨none, fun _ => none, 1⟩) :=
  ⟨rfl, rfl,
    C10_tx_error_state_unchanged Nat "W" (fun _ => none)
      [⟨"sig0", true, 1, 0, true⟩] (fun _ => none) 5 6 rfl rfl⟩

/-- C8: a malformed recipient (PublicKey constructor throws), a NaN amount,
or a non-positive amount makes `handleSend` report a validation error with
no transaction constructed, nothing submitted, and no network access. -/
theorem C8_validation_blocks_network :
    ∀ (r : Option Nat) (a : Option ℚ) (bal : Option ℚ)
      (tx : Except Unit String),
      (r = none ∨ a = none ∨ ∃ x, a = some x ∧ x ≤ 0) →
      ((handleSend r a bal tx).sendError.isSome = true
        ∧ (handleSend r a bal tx).constructedLamports = none
        ∧ (handleSend r a bal tx).submitted = false
        ∧ (handleSend r a bal tx).networkAccess = false) := by
  intro r a bal tx h
  rcases h with rfl | rfl | ⟨x, rfl, hx⟩
  · simp [handleSend]
  · cases r <;> simp [handleSend]
  · cases r with
    | none => simp [handleSend]
    | some rp => simp [handleSend, hx]

/-- C8 witness: a malformed recipient with a well-formed positive amount is
rejected with no transaction and no network access. -/
theorem C8_validation_blocks_network_witness :
    ((none : Option Nat) = none ∨ (some (1 : ℚ) : Option ℚ) = none
      ∨ ∃ x, (some (1 : ℚ) : Option ℚ) = some x ∧ x ≤ 0)
    ∧ ((handleSend none (some 1) none (Except.ok "s")).sendError.isSome = true
      ∧ (handleSend none (some 1) none (Except.ok "s")).constructedLamports = none
      ∧ (handleSend none (some 1) none (Except.ok "s")).submitted = false
      ∧ (handleSend none (some 1) none (Except.ok "s")).networkAccess = false) :=
  ⟨Or.inl rfl,
    C8_validation_blocks_network none (some 1) none (Except.ok "s") (Or.inl rfl)⟩

/-- C9: with the balance state null, any well-formed recipient and positive
amount pass local validation and a transfer of `floor(amount * LAMPORTS_PER_SOL)`
lamports is constructed and submitted, regardless of the actual balance. -/
theorem C9_null_balance_skips_check :
    ∀ (rp : Nat) (x : ℚ) (tx : Except Unit String),
      0 < x →
      ((handleSend (some rp) (some x) none tx).submitted = true
        ∧ (handleSend (some rp) (some x) none tx).constructedLamports
            = some ⌊x * LAMPORTS_PER_SOL⌋
        ∧ (handleSend (some rp) (some x) none tx).networkAccess = true) := by
  intro rp x tx hx
  have hx' : ¬ x ≤ 0 := not_le.2 hx
  cases tx <;> simp [handleSend, hx']

/-- C9 witness: recipient 1, amount 2 SOL, balance state null — the
transfer is submitted with 2 * 10^9 lamports. -/
theorem C9_null_balance_skips_check_witness :
    ((0 : ℚ) < 2)
    ∧ ((handleSend (some 1) (some 2) none (Except.ok "s")).submitted = true
      ∧ (handleSend (some 1) (some 2) none (Except.ok "s")).constructedLamports
          = some ⌊(2 : ℚ) * LAMPORTS_PER_SOL⌋
      ∧ (handleSend (some 1) (some 2) none (Except.ok "s")).networkAccess
          = true) :=
  ⟨by norm_num, C9_null_balance_skips_check 1 2 (Except.ok "s") (by norm_num)⟩

/-! ### Helper lemmas about the fan-out join -/

theorem joinStep_length (hs : List TokenAccount) (env : Nat → MintEnv)
    (acc : List (Option OwnedNFT)) (i : Nat) :
    (joinStep hs env acc i).length = acc.length := by
  unfold joinStep
  cases taskResult hs env i <;> simp

theorem foldl_joinStep_getElem (hs : List TokenAccount) (env : Nat → MintEnv) :
    ∀ (sched : List Nat) (init : List (Option OwnedNFT)),
      init.length = hs.length →
      ∀ j : Nat,
        (sched.foldl (joinStep hs env) init)[j]? =
          if j ∈ sched ∧ j < hs.length then some (taskResult hs env j)
          else init[j]? := by
  intro sched
  induction sched with
  | nil =>
    intro init _ j
    simp
  | cons i rest ih =>
    intro init hlen j
    rw [List.foldl_cons,
      ih (joinStep hs env init i) (by rw [joinStep_length]; exact hlen) j]
    by_cases hjr : j ∈ rest ∧ j < hs.length
    · rw [if_pos hjr, if_pos ⟨List.mem_cons_of_mem i hjr.1, hjr.2⟩]
    · rw [if_neg hjr]
      by_cases hji : j = i
      · subst hji
        by_cases hjn : j < hs.length
        · rw [if_pos ⟨List.mem_cons_self j rest, hjn⟩]
          have hsome : ∃ r, taskResult hs env j = some r := by
            unfold taskResult
            rw [List.getElem?_eq_getElem hjn]
            exact ⟨_, rfl⟩
          obtain ⟨r, hr⟩ := hsome
          unfold joinStep
          rw [hr]
          rw [List.getElem?_set_eq_of_lt (some r) (by rw [hlen]; exact hjn)]
        · rw [if_neg (by rintro ⟨-, h⟩; exact hjn h)]
          unfold joinStep
          have hnone : taskResult hs env j = none := by
            unfold taskResult
            rw [List.getElem?_eq_none (le_of_not_lt hjn)]
            rfl
          rw [hnone]
      · rw [if_neg (by
          rintro ⟨hm, hn⟩
          rcases List.mem_cons.1 hm with h | h
          · exact hji h
          · exact hjr ⟨h, hn⟩)]
        unfold joinStep
        cases htask : taskResult hs env i with
        | none => rfl
        | some r => exact List.getElem?_set_ne (fun h => hji h.symm)

theorem joinByIndex_eq_map (hs : List TokenAccount) (env : Nat → MintEnv)
    (sched : List Nat) (hperm : sched.Perm (List.range hs.length)) :
    joinByIndex hs env sched =
      hs.map fun a => some (processNft a (env a.mint)) := by
  apply List.ext_getElem?
  intro j
  unfold joinByIndex
  rw [foldl_joinStep_getElem hs env sched (List.replicate hs.length none)
    (List.length_replicate _ _) j]
  have hmem : j ∈ sched ↔ j < hs.length := by
    rw [hperm.mem_iff, List.mem_range]
  by_cases hj : j < hs.length
  · rw [if_pos ⟨hmem.2 hj, hj⟩]
    simp [taskResult, List.getElem?_map, List.getElem?_eq_getElem hj]
  · rw [if_neg (by rintro ⟨-, h⟩; exact hj h)]
    rw [List.getElem?_map, List.getElem?_eq_none (le_of_not_lt hj),
      List.getElem?_replicate]
    simp [hj]

/-- C7: under any completion order of the concurrent per-mint lookups (any
permutation `sched` of the task indices), the positional join produces
exactly the in-order resolver output: one OwnedAsset per retained holding,
in the holdings enumeration order. -/
theorem C7_join_preserves_order :
    ∀ (accounts : List TokenAccount) (env : Nat → MintEnv) (sched : List Nat),
      sched.Perm (List.range (nftAccountsOf accounts).length) →
      (joinByIndex (nftAccountsOf accounts) env sched =
          (resolveOwned accounts env).map some
        ∧ (resolveOwned accounts env).length = (nftAccountsOf accounts).length
        ∧ (resolveOwned accounts env).map OwnedNFT.mint =
            (nftAccountsOf accounts).map TokenAccount.mint) := by
  intro accounts env sched hperm
  refine ⟨?_, ?_, resolveOwned_map_mint accounts env⟩
  · rw [joinByIndex_eq_map _ _ _ hperm]
    unfold resolveOwned
    rw [List.map_map]
    rfl
  · unfold resolveOwned
    rw [List.length_map]

/-- C7 witness: two retained holdings whose lookups complete in reverse
order (task 1 first, then task 0); the join still yields the in-order
output for mints 1 then 2. -/
theorem C7_join_preserves_order_witness :
    ([1, 0] : List Nat).Perm
      (List.range (nftAccountsOf [⟨10, 1, 1, 0⟩, ⟨11, 2, 1, 0⟩]).length)
    ∧ (joinByIndex (nftAccountsOf [⟨10, 1, 1, 0⟩, ⟨11, 2, 1, 0⟩])
          (fun _ => ⟨none, false, Except.error ()⟩) [1, 0] =
        (resolveOwned [⟨10, 1, 1, 0⟩, ⟨11, 2, 1, 0⟩]
          (fun _ => ⟨none, false, Except.error ()⟩)).map some
      ∧ (resolveOwned [⟨10, 1, 1, 0⟩, ⟨11, 2, 1, 0⟩]
          (fun _ => ⟨none, false, Except.error ()⟩)).length =
          (nftAccountsOf [⟨10, 1, 1, 0⟩, ⟨11, 2, 1, 0⟩]).length
      ∧ (resolveOwned [⟨10, 1, 1, 0⟩, ⟨11, 2, 1, 0⟩]
          (fun _ => ⟨none, false, Except.error ()⟩)).map OwnedNFT.mint =
          (nftAccountsOf [⟨10, 1, 1, 0⟩, ⟨11, 2, 1, 0⟩]).map TokenAccount.mint) :=
  ⟨by decide,
    C7_join_preserves_order [⟨10, 1, 1, 0⟩, ⟨11, 2, 1, 0⟩]
      (fun _ => ⟨none, false, Except.error ()⟩) [1, 0] (by decide)⟩

end PixelMart
